import Mathlib

/-!
# Verification of the genutra backend (`src/index.js`)

A shallow embedding of the behaviour of the Express handlers in
`src/index.js`, together with theorems settling the specification
claims about them.

Conventions used throughout:
* JavaScript objects used as string-keyed maps (`acc[k] = (acc[k] || 0) + 1`)
  are modelled as association lists `List (String × Nat)` that preserve
  JavaScript's insertion order of first occurrence.
* External primitives (the Supabase store, `bcrypt`, `jsonwebtoken`,
  `JSON.parse`, the OpenAI completion) are modelled either as explicit
  oracle parameters or, where a concrete evaluation is needed, as
  executable models faithful to the primitive on the inputs exercised.
* HTTP outcomes are modelled as inductive response types; a status
  function maps each outcome to its HTTP status code.
-/

set_option maxHeartbeats 1000000

/-- JSON values, the possible results of `JSON.parse`. Numbers are modelled
as integers (no fractional number appears in this development). -/
inductive Json where
  | null
  | bool (b : Bool)
  | num (n : Int)
  | str (s : String)
  | arr (elems : List Json)
  | obj (fields : List (String × Json))
  deriving Repr, Inhabited

/-- JavaScript truthiness of a parsed JSON value: `null`, `false`, `0` and
`""` are falsy; every array and every object (including `\x7b\x7d`) is truthy.
This is the semantics of the guard `if (!planoJson)` in `src/index.js:180`. -/
def jsTruthy : Json → Bool
  | .null => false
  | .bool b => b
  | .num n => n != 0
  | .str s => s != ""
  | .arr _ => true
  | .obj _ => true

/-- Skip JSON whitespace (space, tab, newline, carriage return). -/
def skipWs : List Char → List Char
  | c :: rest => if c = ' ' ∨ c = '\t' ∨ c = '\n' ∨ c = '\r' then skipWs rest else c :: rest
  | [] => []

/-- Parse the body of a JSON string literal (the opening quote already
consumed), returning the string and the remaining input. The `\uXXXX`
escape is not modelled (unused in this development). -/
def parseStringLit : List Char → Option (String × List Char)
  | [] => none
  | '"' :: rest => some ("", rest)
  | '\\' :: e :: rest =>
    let esc : Option Char :=
      if e = '"' then some '"'
      else if e = '\\' then some '\\'
      else if e = '/' then some '/'
      else if e = 'n' then some '\n'
      else if e = 't' then some '\t'
      else if e = 'r' then some '\r'
      else if e = 'b' then some (Char.ofNat 8)
      else if e = 'f' then some (Char.ofNat 12)
      else none
    match esc with
    | none => none
    | some c =>
      match parseStringLit rest with
      | none => none
      | some (s, r) => some (⟨c :: s.data⟩, r)
  | c :: rest =>
    match parseStringLit rest with
    | none => none
    | some (s, r) => some (⟨c :: s.data⟩, r)

/-- Numeric value of a digit run. -/
def digitsToNat (ds : List Char) : Nat :=
  ds.foldl (fun a c => 10 * a + (c.toNat - '0'.toNat)) 0

mutual

/-- Parse one JSON value. Fuel-based recursive descent; fuel strictly
decreases on every nested call, so `length + 2` fuel always suffices for
the inputs evaluated in this development. -/
def parseValue : Nat → List Char → Option (Json × List Char)
  | 0, _ => none
  | fuel + 1, l =>
    match skipWs l with
    | [] => none
    | 'n' :: 'u' :: 'l' :: 'l' :: rest => some (.null, rest)
    | 't' :: 'r' :: 'u' :: 'e' :: rest => some (.bool true, rest)
    | 'f' :: 'a' :: 'l' :: 's' :: 'e' :: rest => some (.bool false, rest)
    | '"' :: rest =>
      match parseStringLit rest with
      | none => none
      | some (s, r) => some (.str s, r)
    | '[' :: rest =>
      (match skipWs rest with
      | ']' :: r => some (.arr [], r)
      | l' => match parseElems fuel l' with
        | none => none
        | some (es, r) => some (.arr es, r))
    | '{' :: rest =>
      (match skipWs rest with
      | '}' :: r => some (.obj [], r)
      | l' => match parseFields fuel l' with
        | none => none
        | some (fs, r) => some (.obj fs, r))
    | '-' :: rest =>
      let ds := rest.takeWhile Char.isDigit
      if ds.isEmpty then none
      else some (.num (-(digitsToNat ds : Int)), rest.dropWhile Char.isDigit)
    | c :: rest =>
      if c.isDigit then
        let ds := (c :: rest).takeWhile Char.isDigit
        some (.num (digitsToNat ds : Int), (c :: rest).dropWhile Char.isDigit)
      else none

/-- Parse a nonempty comma-separated list of JSON values, then `]`. -/
def parseElems : Nat → List Char → Option (List Json × List Char)
  | 0, _ => none
  | fuel + 1, l =>
    match parseValue fuel l with
    | none => none
    | some (v, r) =>
      match skipWs r with
      | ',' :: r2 =>
        (match parseElems fuel r2 with
        | none => none
        | some (es, r3) => some (v :: es, r3))
      | ']' :: r2 => some ([v], r2)
      | _ => none

/-- Parse a nonempty comma-separated list of `"key": value` fields, then
the closing brace. -/
def parseFields : Nat → List Char → Option (List (String × Json) × List Char)
  | 0, _ => none
  | fuel + 1, l =>
    match skipWs l with
    | '"' :: rest =>
      (match parseStringLit rest with
      | none => none
      | some (k, r) =>
        match skipWs r with
        | ':' :: r2 =>
          (match parseValue fuel r2 with
          | none => none
          | some (v, r3) =>
            match skipWs r3 with
            | ',' :: r4 =>
              (match parseFields fuel r4 with
              | none => none
              | some (fs, r5) => some ((k, v) :: fs, r5))
            | '}' :: r4 => some ([(k, v)], r4)
            | _ => none)
        | _ => none)
    | _ => none

end

/-- Model of the external `JSON.parse` builtin: parse a complete JSON
document, requiring the whole input to be consumed (up to trailing
whitespace). `Except.error` models the thrown `SyntaxError`. -/
def jsonParse (s : String) : Except Unit Json :=
  match parseValue (s.length + 2) s.data with
  | none => .error ()
  | some (j, rest) =>
    match skipWs rest with
    | [] => .ok j
    | _ => .error ()

/-! ## The regex `\x7b[\s\S]*\x7d` of `src/index.js:175`

`content.match(/\x7b[\s\S]*\x7d/)` finds, greedily, the span from the
first `{` of the text to the last `}`; there is a match exactly when some
`}` occurs strictly after some `{`. -/

/-- The suffix of the input starting at the first `{`, if any. -/
def dropBeforeBrace : List Char → Option (List Char)
  | [] => none
  | c :: rest => if c = '{' then some (c :: rest) else dropBeforeBrace rest

/-- The suffix of the (reversed) input starting at the first `}`, if any.
Applied to a reversed string this finds the last `}`. -/
def dropAfterRev : List Char → Option (List Char)
  | [] => none
  | c :: rest => if c = '}' then some (c :: rest) else dropAfterRev rest

/-- The span matched by `/\x7b[\s\S]*\x7d/`: from the first `{` to the
last `}`, provided that last `}` lies after the first `{`. -/
def matchBraceSpan (l : List Char) : Option (List Char) :=
  match dropBeforeBrace l with
  | none => none
  | some suff =>
    match dropAfterRev suff.reverse with
    | none => none
    | some revSpan => some revSpan.reverse

/-- Whether the text contains a brace-delimited span at all. -/
def hasBraceSpan (l : List Char) : Bool :=
  (matchBraceSpan l).isSome

/-! ## The `/gerar-plano` handler (`src/index.js:172-205`)

The model starts after the OpenAI completion returns: `content` is the
raw AI response text. `parse` is the `JSON.parse` oracle and `insertRow`
the Supabase `planos` insert oracle (the inserted row's other columns —
`paciente`, `objetivo`, `data`, `anamnese`, `user_id` — do not influence
the control flow modelled here, so the oracle receives the `plano`
payload). -/

/-- Response of the `/gerar-plano` handler from the extraction step on. -/
inductive GPResp where
  /-- 400 `Erro ao interpretar resposta da IA. Tente novamente.`
  (the catch around `JSON.parse`). -/
  | parseErr
  /-- 400 `A IA não retornou um JSON válido.` (the `if (!planoJson)` guard,
  reached both when no brace span matched and when the parse result is
  JS-falsy). -/
  | invalidJson
  /-- 400 with the store's message (the insert failed). -/
  | insertErr (msg : String)
  /-- 200 `\x7bplano: planoSalvo[0]\x7d`. -/
  | ok (plano : Json)
  deriving Repr

/-- Outcome of the handler: the response, plus the row handed to the
store's insert if the insert call was reached at all. -/
structure GPOut where
  resp : GPResp
  inserted : Option Json
  deriving Repr

/-- HTTP status of a `/gerar-plano` response. -/
def gpStatus : GPResp → Nat
  | .parseErr => 400
  | .invalidJson => 400
  | .insertErr _ => 400
  | .ok _ => 200

/-- The plan object delivered to the caller, if any. -/
def gpPlanBody : GPResp → Option Json
  | .ok p => some p
  | _ => none

/-- The `/gerar-plano` pipeline of `src/index.js:172-205`: extract the
brace span, `JSON.parse` it (a throw is caught and answered with 400),
reject a JS-falsy result with 400, otherwise insert and answer 200 with
the saved row. -/
def gerarPlano (parse : String → Except Unit Json) (insertRow : Json → Except String Json)
    (content : String) : GPOut :=
  match matchBraceSpan content.data with
  | none => ⟨.invalidJson, none⟩
  | some span =>
    match parse ⟨span⟩ with
    | .error _ => ⟨.parseErr, none⟩
    | .ok j =>
      if jsTruthy j then
        match insertRow j with
        | .error msg => ⟨.insertErr msg, some j⟩
        | .ok saved => ⟨.ok saved, some j⟩
      else ⟨.invalidJson, none⟩

/-! ### Supporting lemmas for the brace-span extraction -/

theorem dropBeforeBrace_eq_none {l : List Char} :
    dropBeforeBrace l = none ↔ '{' ∉ l := by
  induction l with
  | nil => simp [dropBeforeBrace]
  | cons c rest ih =>
    by_cases h : c = '{'
    · subst h; simp [dropBeforeBrace]
    · simp [dropBeforeBrace, h, ih, Ne.symm h]

theorem dropAfterRev_eq_none {l : List Char} :
    dropAfterRev l = none ↔ '}' ∉ l := by
  induction l with
  | nil => simp [dropAfterRev]
  | cons c rest ih =>
    by_cases h : c = '}'
    · subst h; simp [dropAfterRev]
    · simp [dropAfterRev, h, ih, Ne.symm h]

theorem dropBeforeBrace_cons_not {c : Char} {rest : List Char} (h : c ≠ '{') :
    dropBeforeBrace (c :: rest) = dropBeforeBrace rest := by
  simp [dropBeforeBrace, h]

/-- Characterisation of `hasBraceSpan`: the text has a brace-delimited
span exactly when it can be split as `l₁ ++ '\x7b' :: m ++ '\x7d' :: l₂`. -/
theorem hasBraceSpan_iff {l : List Char} :
    hasBraceSpan l = true ↔ ∃ l₁ m l₂, l = l₁ ++ '{' :: (m ++ '}' :: l₂) := by
  induction l with
  | nil =>
    constructor
    · intro h; simp [hasBraceSpan, matchBraceSpan, dropBeforeBrace] at h
    · rintro ⟨l₁, m, l₂, h⟩; simp at h
  | cons c rest ih =>
    by_cases hc : c = '{'
    · subst hc
      have hspan : hasBraceSpan ('{' :: rest) = true ↔ '}' ∈ rest := by
        unfold hasBraceSpan matchBraceSpan
        simp only [dropBeforeBrace, if_pos rfl, List.reverse_cons]
        rcases h : dropAfterRev (rest.reverse ++ ['{']) with _ | s
        · have h2 : '}' ∉ rest := by
            intro hx
            exact absurd (by simp [hx] : '}' ∈ rest.reverse ++ ['{'])
              (dropAfterRev_eq_none.mp h)
          simp [h, h2]
        · have hm' : '}' ∈ rest.reverse ++ ['{'] := by
            by_contra hnot
            rw [← dropAfterRev_eq_none] at hnot
            rw [h] at hnot; exact Option.noConfusion hnot
          have hm : '}' ∈ rest := by
            rcases List.mem_append.mp hm' with h1 | h1
            · exact List.mem_reverse.mp h1
            · simp at h1
          simp [h, hm]
      rw [hspan]
      constructor
      · intro hm
        obtain ⟨s, t, hst⟩ := List.append_of_mem hm
        exact ⟨[], s, t, by simp [hst]⟩
      · rintro ⟨l₁, m, l₂, h⟩
        rcases l₁ with _ | ⟨x, l₁'⟩
        · simp only [List.nil_append, List.cons.injEq] at h
          rw [h.2]; simp
        · simp only [List.cons_append, List.cons.injEq] at h
          rw [h.2]; simp
    · have hstep : hasBraceSpan (c :: rest) = hasBraceSpan rest := by
        unfold hasBraceSpan matchBraceSpan
        rw [dropBeforeBrace_cons_not hc]
      rw [hstep, ih]
      constructor
      · rintro ⟨l₁, m, l₂, h⟩
        exact ⟨c :: l₁, m, l₂, by simp [h]⟩
      · rintro ⟨l₁, m, l₂, h⟩
        rcases l₁ with _ | ⟨x, l₁'⟩
        · simp only [List.nil_append, List.cons.injEq] at h
          exact absurd h.1 hc
        · simp only [List.cons_append, List.cons.injEq] at h
          exact ⟨l₁', m, l₂, h.2⟩

theorem matchBraceSpan_eq_none_of_not_hasBraceSpan {l : List Char}
    (h : hasBraceSpan l = false) : matchBraceSpan l = none := by
  unfold hasBraceSpan at h
  rcases hm : matchBraceSpan l with _ | s
  · rfl
  · rw [hm] at h; simp [Option.isSome] at h

/-! ## Claims C1 and C2 -/

/-- C1: for every AI text-generation response that contains no `\x7b`/`\x7d`
brace-delimited span, the plan-generation operation fails with
`InvalidAIResponse` (HTTP 400, the message `A IA não retornou um JSON
válido.`), the caller receives no plan, and no plan row is persisted —
the store insert is never reached, whatever the `JSON.parse` oracle and
the store oracle do. -/
theorem gerar_plano_no_brace_span_rejected
    (parse : String → Except Unit Json) (insertRow : Json → Except String Json)
    (content : String)
    (hno : ¬ ∃ l₁ m l₂, content.data = l₁ ++ '{' :: (m ++ '}' :: l₂)) :
    gerarPlano parse insertRow content = ⟨.invalidJson, none⟩ ∧
    gpStatus (gerarPlano parse insertRow content).resp = 400 ∧
    gpPlanBody (gerarPlano parse insertRow content).resp = none ∧
    (gerarPlano parse insertRow content).inserted = none := by
  have hfalse : hasBraceSpan content.data = false := by
    by_contra h
    rw [Bool.not_eq_false] at h
    exact hno (hasBraceSpan_iff.mp h)
  have hnone := matchBraceSpan_eq_none_of_not_hasBraceSpan hfalse
  unfold gerarPlano
  rw [hnone]
  exact ⟨rfl, rfl, rfl, rfl⟩

/-- Witness for C1 at the concrete braceless response
`Desculpe, nao consegui gerar o plano.`. -/
theorem gerar_plano_no_brace_span_rejected_witness :
    gerarPlano jsonParse (fun j => .ok j) "Desculpe, nao consegui gerar o plano." =
      ⟨.invalidJson, none⟩ ∧
    gpStatus (gerarPlano jsonParse (fun j => .ok j)
      "Desculpe, nao consegui gerar o plano.").resp = 400 ∧
    gpPlanBody (gerarPlano jsonParse (fun j => .ok j)
      "Desculpe, nao consegui gerar o plano.").resp = none ∧
    (gerarPlano jsonParse (fun j => .ok j)
      "Desculpe, nao consegui gerar o plano.").inserted = none :=
  gerar_plano_no_brace_span_rejected jsonParse (fun j => .ok j)
    "Desculpe, nao consegui gerar o plano."
    (fun h => absurd (hasBraceSpan_iff.mpr h) (by decide))

/-- C2 counterexample: the AI response `"{}"` has the extracted brace span
`"{}"`, which `JSON.parse` parses successfully to the empty object — an
empty but *truthy* value in JavaScript — so, contrary to the claim, the
operation does not fail: it answers 200 and the empty plan row is handed
to the store insert and persisted. -/
theorem gerar_plano_empty_object_counterexample :
    matchBraceSpan (String.data "{}") = some ['{', '}'] ∧
    jsonParse "{}" = .ok (.obj []) ∧
    jsTruthy (.obj []) = true ∧
    gerarPlano jsonParse (fun j => .ok j) "{}" = ⟨.ok (.obj []), some (.obj [])⟩ ∧
    gpStatus (gerarPlano jsonParse (fun j => .ok j) "{}").resp = 200 ∧
    (gerarPlano jsonParse (fun j => .ok j) "{}").inserted = some (.obj []) :=
  ⟨rfl, rfl, rfl, rfl, rfl, rfl⟩

/-- C2 amended: for every AI response whose extracted brace span parses
successfully but yields a JavaScript-falsy result, the operation fails
with `InvalidAIResponse` and nothing is persisted. (A successfully parsed
*empty object* is truthy, passes the `if (!planoJson)` guard, and is
persisted — see the counterexample.) -/
theorem gerar_plano_falsy_parse_rejected
    (parse : String → Except Unit Json) (insertRow : Json → Except String Json)
    (content : String) (span : List Char) (j : Json)
    (hspan : matchBraceSpan content.data = some span)
    (hparse : parse ⟨span⟩ = .ok j)
    (hfalsy : jsTruthy j = false) :
    gerarPlano parse insertRow content = ⟨.invalidJson, none⟩ ∧
    gpStatus (gerarPlano parse insertRow content).resp = 400 ∧
    (gerarPlano parse insertRow content).inserted = none := by
  have key : gerarPlano parse insertRow content = ⟨.invalidJson, none⟩ := by
    simp [gerarPlano, hspan, hparse, hfalsy]
  exact ⟨key, by rw [key]; rfl, by rw [key]⟩

/-- Witness for the amended C2: a parse oracle answering `null` (a falsy
parse result) on the span `"{}"` leads to the 400 rejection with no
insert. -/
theorem gerar_plano_falsy_parse_rejected_witness :
    gerarPlano (fun _ => .ok Json.null) (fun j => .ok j) "{}" = ⟨.invalidJson, none⟩ ∧
    gpStatus (gerarPlano (fun _ => .ok Json.null) (fun j => .ok j) "{}").resp = 400 ∧
    (gerarPlano (fun _ => .ok Json.null) (fun j => .ok j) "{}").inserted = none :=
  gerar_plano_falsy_parse_rejected (fun _ => .ok Json.null) (fun j => .ok j)
    "{}" ['{', '}'] Json.null rfl rfl rfl

/-! ## The `/dashboard` handler (`src/index.js:252-311`)

A `Plano` carries the three columns the metrics read: `data` (the
creation date string, written as `YYYY-MM-DD` by `/gerar-plano`),
`paciente` (subject name) and `objetivo` (goal). JavaScript objects used
as counters are association lists preserving key insertion order; the
stable `Array.prototype.sort` is modelled by the (stable) insertion
sort, and `Array.prototype.reduce` with no initial accumulator by
`reduce1`, which is `none` exactly when the array is empty and the
reduce would throw. The 7-day window check `new Date(p.data) >=
seteDiasAtras` depends on the clock, so it is an oracle `within7` on the
date string. -/

/-- A row of the `planos` table as the dashboard reads it. -/
structure Plano where
  data : String
  paciente : String
  objetivo : String
  deriving Repr, DecidableEq, Inhabited

/-- `acc[k] = (acc[k] || 0) + 1` on a JavaScript object: increment in
place, or append a fresh key at the end (JS insertion order). -/
def bump : List (String × Nat) → String → List (String × Nat)
  | [], k => [(k, 1)]
  | (k', v) :: rest, k => if k' = k then (k', v + 1) :: rest else (k', v) :: bump rest k

/-- Count stored under key `k` (0 when absent), i.e. `acc[k] || 0`. -/
def getCount : List (String × Nat) → String → Nat
  | [], _ => 0
  | (k', v) :: rest, k => if k' = k then v else getCount rest k

/-- `p.data?.slice(0, 7)`: the first (at most) 7 characters. -/
def slice7 (s : String) : String :=
  ⟨s.data.take 7⟩

/-- `planos.reduce((acc, p) => ..., \x7b\x7d)` building `planosPorMes`. -/
def planosPorMesOf (planos : List Plano) : List (String × Nat) :=
  planos.foldl (fun acc p => bump acc (slice7 p.data)) []

/-- `planos.reduce((acc, p) => ..., \x7b\x7d)` building `planosPorObjetivo`. -/
def planosPorObjetivoOf (planos : List Plano) : List (String × Nat) :=
  planos.foldl (fun acc p => bump acc p.objetivo) []

/-- The comparator `(a, b) => b[1] - a[1]` of `src/index.js:292`, read as
the "keep `a` before `b`" relation of a stable sort: `b[1] - a[1] ≤ 0`. -/
def byCountDesc (a b : String × Nat) : Prop :=
  b.2 ≤ a.2

instance : DecidableRel byCountDesc := fun a b => Nat.decLe b.2 a.2

/-- `Object.entries(planosPorObjetivo).sort((a, b) => b[1] - a[1])`:
JavaScript's sort is stable, and a stable sort under a total preorder is
unique, so the stable `insertionSort` models it. -/
def sortedObjetivosOf (planos : List Plano) : List (String × Nat) :=
  (planosPorObjetivoOf planos).insertionSort byCountDesc

/-- `.slice(0, 3)`: the top-3 goal entries. -/
def topObjetivosOf (planos : List Plano) : List (String × Nat) :=
  (sortedObjetivosOf planos).take 3

/-- `a.data > b.data ? a : b`, the reducer of `src/index.js:286`. -/
def maxByData (a b : Plano) : Plano :=
  if b.data < a.data then a else b

/-- `Array.prototype.reduce` without an initial value: `none` on the
empty array (where JavaScript throws a `TypeError`). -/
def reduce1 (f : α → α → α) : List α → Option α
  | [] => none
  | x :: xs => some (xs.foldl f x)

/-- `planos.reduce((a, b) => (a.data > b.data ? a : b))`. -/
def ultimoPlanoOf (planos : List Plano) : Option Plano :=
  reduce1 maxByData planos

/-- The JSON object answered by `/dashboard`. -/
structure DashResp where
  totalPlanos : Nat
  planosPorMes : List (String × Nat)
  totalPacientes : Nat
  planosPorObjetivo : List (String × Nat)
  ultimoPlano : Option (String × String × String)
  planosUltimos7Dias : Nat
  topObjetivos : List (String × Nat)
  deriving Repr, DecidableEq

/-- The early-return shape of `src/index.js:259-267`. -/
def zeroDash : DashResp :=
  { totalPlanos := 0
    planosPorMes := []
    totalPacientes := 0
    planosPorObjetivo := []
    ultimoPlano := none
    planosUltimos7Dias := 0
    topObjetivos := [] }

/-- The aggregation body of `/dashboard` (`src/index.js:269-307`): runs
after the empty guard; `none` models the `TypeError` thrown by the
initial-value-less `reduce` on an empty array (caught as a 500). -/
def computeMetrics (within7 : String → Bool) (planos : List Plano) : Option DashResp :=
  match ultimoPlanoOf planos with
  | none => none
  | some ultimo =>
    some { totalPlanos := planos.length
           planosPorMes := planosPorMesOf planos
           totalPacientes := (planos.map (·.paciente)).dedup.length
           planosPorObjetivo := planosPorObjetivoOf planos
           ultimoPlano := some (ultimo.data, ultimo.paciente, ultimo.objetivo)
           planosUltimos7Dias := (planos.filter (fun p => within7 p.data)).length
           topObjetivos := topObjetivosOf planos }

/-- The `/dashboard` handler on the user's plan rows: the
`planos.length === 0` guard answers the zero shape before any
aggregation; otherwise the metrics body runs. -/
def dashboard (within7 : String → Bool) (planos : List Plano) : Option DashResp :=
  if planos.isEmpty then some zeroDash else computeMetrics within7 planos

/-! ## Claim C3 -/

/-- C3: on the empty plan list the dashboard answers exactly the zero
shape — all counts 0, both mappings empty, `ultimoPlano` null,
`topObjetivos` empty — and does so for *every* date-parsing oracle,
without the aggregation body: that body (`computeMetrics`), which
contains the date parsing and the sort, would throw (`none`) on the
empty list, so the early guard is what produces the shape. -/
theorem dashboard_empty_zero_shape :
    ∀ within7 : String → Bool,
      dashboard within7 [] = some zeroDash ∧
      zeroDash.totalPlanos = 0 ∧
      zeroDash.planosPorMes = [] ∧
      zeroDash.totalPacientes = 0 ∧
      zeroDash.planosPorObjetivo = [] ∧
      zeroDash.ultimoPlano = none ∧
      zeroDash.planosUltimos7Dias = 0 ∧
      zeroDash.topObjetivos = [] ∧
      computeMetrics within7 [] = none :=
  fun _ => ⟨rfl, rfl, rfl, rfl, rfl, rfl, rfl, rfl, rfl⟩

/-! ### Supporting lemmas on `bump` counters -/

theorem getCount_bump (acc : List (String × Nat)) (k' k : String) :
    getCount (bump acc k') k = getCount acc k + (if k' = k then 1 else 0) := by
  induction acc with
  | nil => by_cases h : k' = k <;> simp [bump, getCount, h]
  | cons kv rest ih =>
    obtain ⟨a, v⟩ := kv
    by_cases hak : a = k'
    · subst hak
      by_cases h : a = k <;> simp [bump, getCount, h]
    · by_cases h : a = k
      · have hk' : ¬ k' = k := fun hx => hak (h.trans hx.symm)
        have hka : ¬ k = k' := fun hx => hk' hx.symm
        simp [bump, getCount, hak, h, hk', hka]
      · simp [bump, getCount, hak, h, ih]

theorem mem_keys_bump {acc : List (String × Nat)} {k x : String} :
    x ∈ (bump acc k).map Prod.fst ↔ x ∈ acc.map Prod.fst ∨ x = k := by
  induction acc with
  | nil => simp [bump]
  | cons kv rest ih =>
    obtain ⟨a, v⟩ := kv
    by_cases h : a = k
    · subst h; simp [bump]; tauto
    · simp [bump, h, ih]; tauto

theorem bump_keys_nodup {acc : List (String × Nat)} (h : (acc.map Prod.fst).Nodup)
    (k : String) : ((bump acc k).map Prod.fst).Nodup := by
  induction acc with
  | nil => simp [bump]
  | cons kv rest ih =>
    obtain ⟨a, v⟩ := kv
    simp only [List.map_cons, List.nodup_cons] at h
    by_cases hak : a = k
    · subst hak; simpa [bump] using h
    · simp only [bump, if_neg hak, List.map_cons, List.nodup_cons]
      refine ⟨fun hmem => ?_, ih h.2⟩
      rcases mem_keys_bump.mp hmem with hm | hm
      · exact h.1 hm
      · exact hak hm

theorem getCount_of_mem {acc : List (String × Nat)} {k : String} {v : Nat}
    (hnd : (acc.map Prod.fst).Nodup) (h : (k, v) ∈ acc) : getCount acc k = v := by
  induction acc with
  | nil => simp at h
  | cons kv rest ih =>
    obtain ⟨a, w⟩ := kv
    simp only [List.map_cons, List.nodup_cons] at hnd
    rcases List.mem_cons.mp h with heq | hmem
    · injection heq with h1 h2
      subst h1; subst h2
      simp [getCount]
    · have hak : a ≠ k := by
        intro hx; subst hx
        exact hnd.1 (List.mem_map.mpr ⟨(a, v), hmem, rfl⟩)
      simp [getCount, hak, ih hnd.2 hmem]

theorem getCount_foldl_bump (f : Plano → String) (l : List Plano)
    (acc : List (String × Nat)) (k : String) :
    getCount (l.foldl (fun a p => bump a (f p)) acc) k
      = getCount acc k + l.countP (fun p => f p == k) := by
  induction l generalizing acc with
  | nil => simp
  | cons p l ih =>
    rw [List.foldl_cons, ih, getCount_bump, List.countP_cons]
    by_cases h : f p = k
    · simp [h]
      omega
    · simp [h]

theorem foldl_bump_keys_nodup (f : Plano → String) (l : List Plano)
    (acc : List (String × Nat)) (h : (acc.map Prod.fst).Nodup) :
    ((l.foldl (fun a p => bump a (f p)) acc).map Prod.fst).Nodup := by
  induction l generalizing acc with
  | nil => exact h
  | cons p l ih => exact ih _ (bump_keys_nodup h (f p))

theorem mem_foldl_bump {f : Plano → String} {l : List Plano}
    {acc : List (String × Nat)} {k : String} {v : Nat}
    (h : (k, v) ∈ l.foldl (fun a p => bump a (f p)) acc) :
    (∃ v', (k, v') ∈ acc) ∨ ∃ p ∈ l, k = f p := by
  induction l generalizing acc v with
  | nil => exact .inl ⟨v, h⟩
  | cons p l ih =>
    rw [List.foldl_cons] at h
    rcases ih h with ⟨v', hv'⟩ | ⟨q, hq, hk⟩
    · have hkey : k ∈ (bump acc (f p)).map Prod.fst :=
        List.mem_map.mpr ⟨(k, v'), hv', rfl⟩
      rcases mem_keys_bump.mp hkey with hm | hm
      · obtain ⟨⟨k2, v2⟩, hmem, hfst⟩ := List.mem_map.mp hm
        exact .inl ⟨v2, by simpa [← hfst] using hmem⟩
      · exact .inr ⟨p, List.mem_cons_self .., hm⟩
    · exact .inr ⟨q, List.mem_cons_of_mem _ hq, hk⟩

/-- On a nonempty row list the dashboard runs the aggregation body and
answers the metrics record (plain unfolding of the definitions). -/
theorem dashboard_cons (within7 : String → Bool) (p : Plano) (rest : List Plano) :
    dashboard within7 (p :: rest) = some
      { totalPlanos := (p :: rest).length
        planosPorMes := planosPorMesOf (p :: rest)
        totalPacientes := ((p :: rest).map (·.paciente)).dedup.length
        planosPorObjetivo := planosPorObjetivoOf (p :: rest)
        ultimoPlano := some ((rest.foldl maxByData p).data, (rest.foldl maxByData p).paciente,
          (rest.foldl maxByData p).objetivo)
        planosUltimos7Dias := ((p :: rest).filter (fun q => within7 q.data)).length
        topObjetivos := topObjetivosOf (p :: rest) } :=
  rfl

/-! ## Claim C6 -/

/-- C6: whatever response the dashboard produces, its `planosPorMes` is
the `bump` fold over the rows, and — for rows whose dates have the
10-character `YYYY-MM-DD` shape `/gerar-plano` writes — every key of that
mapping has exactly 7 characters, is the 7-character prefix `YYYY-MM` of
some record's date, and maps to the number of records sharing that
prefix. -/
theorem dashboard_planosPorMes_keys (planos : List Plano)
    (h10 : ∀ p ∈ planos, p.data.length = 10) :
    (∀ (within7 : String → Bool) (resp : DashResp),
        dashboard within7 planos = some resp → resp.planosPorMes = planosPorMesOf planos) ∧
    ∀ k v, (k, v) ∈ planosPorMesOf planos →
      k.length = 7 ∧ (∃ p ∈ planos, k = slice7 p.data) ∧
      v = planos.countP (fun p => slice7 p.data == k) := by
  constructor
  · intro within7 resp hd
    cases planos with
    | nil =>
      have h0 : dashboard within7 [] = some zeroDash := rfl
      rw [h0] at hd
      cases hd
      rfl
    | cons p rest =>
      rw [dashboard_cons] at hd
      cases hd
      rfl
  · intro k v hmem
    have hnd := foldl_bump_keys_nodup (fun p => slice7 p.data) planos [] (by simp)
    have hv : getCount (planosPorMesOf planos) k = v := getCount_of_mem hnd hmem
    have hsplit : ∃ p ∈ planos, k = slice7 p.data := by
      rcases mem_foldl_bump hmem with ⟨v', hv'⟩ | h
      · simp at hv'
      · exact h
    obtain ⟨p, hp, hkp⟩ := hsplit
    refine ⟨?_, ⟨p, hp, hkp⟩, ?_⟩
    · rw [hkp]
      have hlen : (slice7 p.data).length = (p.data.data.take 7).length := rfl
      have hdl : p.data.data.length = 10 := h10 p hp
      rw [hlen, List.length_take]
      omega
    · have hcnt := getCount_foldl_bump (fun p => slice7 p.data) planos [] k
      have hz : getCount [] k = 0 := rfl
      rw [hz] at hcnt
      have : getCount (planosPorMesOf planos) k
          = planos.countP (fun p => slice7 p.data == k) := by
        rw [show planosPorMesOf planos
            = planos.foldl (fun a p => bump a (slice7 p.data)) [] from rfl, hcnt]
        omega
      omega

/-- Witness for C6 on a concrete three-row list with two distinct months:
the key `2024-01` has length 7, is the prefix of a record's date, and
counts the two January records. -/
theorem dashboard_planosPorMes_keys_witness :
    String.length "2024-01" = 7 ∧
    (∃ p ∈ [Plano.mk "2024-01-15" "Ana" "perda de peso",
            Plano.mk "2024-01-20" "Bia" "ganho de massa",
            Plano.mk "2024-02-01" "Ana" "perda de peso"], "2024-01" = slice7 p.data) ∧
    2 = [Plano.mk "2024-01-15" "Ana" "perda de peso",
         Plano.mk "2024-01-20" "Bia" "ganho de massa",
         Plano.mk "2024-02-01" "Ana" "perda de peso"].countP
        (fun p => slice7 p.data == "2024-01") :=
  (dashboard_planosPorMes_keys
    [Plano.mk "2024-01-15" "Ana" "perda de peso",
     Plano.mk "2024-01-20" "Bia" "ganho de massa",
     Plano.mk "2024-02-01" "Ana" "perda de peso"]
    (by decide)).2 "2024-01" 2 (by decide)

/-! ## Claim C4 -/

/-- The left fold of `(a, b) => (a.data > b.data ? a : b)` lands on an
element of the array whose date is maximal, and everything *after* that
occurrence has a strictly smaller date: the fold keeps the current
maximum only while strictly greater, so on ties the later element wins. -/
theorem foldl_maxByData_spec : ∀ (l : List Plano) (a : Plano),
    ∃ l₁ l₂, a :: l = l₁ ++ (l.foldl maxByData a) :: l₂ ∧
      (∀ p ∈ a :: l, p.data ≤ (l.foldl maxByData a).data) ∧
      (∀ p ∈ l₂, p.data < (l.foldl maxByData a).data)
  | [], a => ⟨[], [], rfl, by simp, by simp⟩
  | b :: l, a => by
    obtain ⟨m₁, m₂, heq, hmax, hsuf⟩ := foldl_maxByData_spec l (maxByData a b)
    rw [List.foldl_cons]
    by_cases hab : b.data < a.data
    · have hc : maxByData a b = a := if_pos hab
      rw [hc] at heq hmax hsuf ⊢
      have hadata : a.data ≤ (l.foldl maxByData a).data :=
        hmax a (List.mem_cons_self ..)
      rcases m₁ with _ | ⟨x, m₁'⟩
      · simp only [List.nil_append, List.cons.injEq] at heq
        obtain ⟨hua, hlm⟩ := heq
        refine ⟨[], b :: l, by simp [← hua], ?_, ?_⟩
        · intro p hp
          rcases List.mem_cons.mp hp with h1 | hp'
          · subst h1; exact hadata
          · rcases List.mem_cons.mp hp' with h1 | hp''
            · subst h1; exact (le_of_lt hab).trans hadata
            · exact hmax p (List.mem_cons_of_mem _ hp'')
        · intro p hp
          rcases List.mem_cons.mp hp with h1 | hp'
          · subst h1; exact lt_of_lt_of_le hab hadata
          · exact hsuf p (hlm ▸ hp')
      · simp only [List.cons_append, List.cons.injEq] at heq
        obtain ⟨hxa, hlm⟩ := heq
        refine ⟨a :: b :: m₁', m₂, by simp only [List.cons_append]; rw [← hlm], ?_, hsuf⟩
        intro p hp
        rcases List.mem_cons.mp hp with h1 | hp'
        · subst h1; exact hadata
        · rcases List.mem_cons.mp hp' with h1 | hp''
          · subst h1; exact (le_of_lt hab).trans hadata
          · exact hmax p (List.mem_cons_of_mem _ hp'')
    · have hc : maxByData a b = b := if_neg hab
      have hba : a.data ≤ b.data := le_of_not_lt hab
      rw [hc] at heq hmax hsuf ⊢
      have hbdata : b.data ≤ (l.foldl maxByData b).data :=
        hmax b (List.mem_cons_self ..)
      rcases m₁ with _ | ⟨x, m₁'⟩
      · simp only [List.nil_append, List.cons.injEq] at heq
        obtain ⟨hub, hlm⟩ := heq
        refine ⟨[a], l, by simp [← hub], ?_, ?_⟩
        · intro p hp
          rcases List.mem_cons.mp hp with h1 | hp'
          · subst h1; exact hba.trans hbdata
          · rcases List.mem_cons.mp hp' with h1 | hp''
            · subst h1; exact hbdata
            · exact hmax p (List.mem_cons_of_mem _ hp'')
        · intro p hp
          exact hsuf p (hlm ▸ hp)
      · simp only [List.cons_append, List.cons.injEq] at heq
        obtain ⟨hxb, hlm⟩ := heq
        refine ⟨a :: b :: m₁', m₂, by simp only [List.cons_append]; rw [← hlm], ?_, hsuf⟩
        intro p hp
        rcases List.mem_cons.mp hp with h1 | hp'
        · subst h1; exact hba.trans hbdata
        · rcases List.mem_cons.mp hp' with h1 | hp''
          · subst h1; exact hbdata
          · exact hmax p (List.mem_cons_of_mem _ hp'')

/-- C4: on every nonempty row list the dashboard's `ultimoPlano` comes
from a record `u` whose date string is lexicographically maximum; the
rows split as `l₁ ++ u :: l₂` with every row after `u` strictly smaller
(the left fold keeps the current element only when strictly greater, so
ties resolve last-seen-wins in store arrival order); and only `u`'s
date, subject name and goal are reported. -/
theorem dashboard_ultimoPlano_lex_max (within7 : String → Bool)
    (planos : List Plano) (h : planos ≠ []) :
    ∃ u l₁ l₂ resp,
      dashboard within7 planos = some resp ∧
      planos = l₁ ++ u :: l₂ ∧
      (∀ p ∈ planos, p.data ≤ u.data) ∧
      (∀ p ∈ l₂, p.data < u.data) ∧
      resp.ultimoPlano = some (u.data, u.paciente, u.objetivo) := by
  match planos, h with
  | p :: rest, _ =>
    obtain ⟨l₁, l₂, heq, hmax, hsuf⟩ := foldl_maxByData_spec rest p
    exact ⟨rest.foldl maxByData p, l₁, l₂, _, dashboard_cons within7 p rest,
      heq, hmax, hsuf, rfl⟩

/-- Witness for C4 on a concrete list with a duplicated maximal date; the
conjunct evaluating `ultimoPlanoOf` pins down the last-seen-wins
tie-break: of the two rows dated `2024-02-01` the later one (Caio) is
reported. -/
theorem dashboard_ultimoPlano_lex_max_witness :
    (∃ u l₁ l₂ resp,
      dashboard (fun _ => false)
        [Plano.mk "2024-02-01" "Ana" "perda de peso",
         Plano.mk "2024-01-01" "Bia" "ganho de massa",
         Plano.mk "2024-02-01" "Caio" "manutencao"] = some resp ∧
      [Plano.mk "2024-02-01" "Ana" "perda de peso",
       Plano.mk "2024-01-01" "Bia" "ganho de massa",
       Plano.mk "2024-02-01" "Caio" "manutencao"] = l₁ ++ u :: l₂ ∧
      (∀ p ∈ [Plano.mk "2024-02-01" "Ana" "perda de peso",
              Plano.mk "2024-01-01" "Bia" "ganho de massa",
              Plano.mk "2024-02-01" "Caio" "manutencao"], p.data ≤ u.data) ∧
      (∀ p ∈ l₂, p.data < u.data) ∧
      resp.ultimoPlano = some (u.data, u.paciente, u.objetivo)) ∧
    ultimoPlanoOf
        [Plano.mk "2024-02-01" "Ana" "perda de peso",
         Plano.mk "2024-01-01" "Bia" "ganho de massa",
         Plano.mk "2024-02-01" "Caio" "manutencao"]
      = some (Plano.mk "2024-02-01" "Caio" "manutencao") :=
  ⟨dashboard_ultimoPlano_lex_max (fun _ => false) _ (by decide), by
    have h1 : maxByData (Plano.mk "2024-02-01" "Ana" "perda de peso")
        (Plano.mk "2024-01-01" "Bia" "ganho de massa")
        = Plano.mk "2024-02-01" "Ana" "perda de peso" := by
      unfold maxByData
      rw [if_pos (by rw [String.lt_iff_toList_lt]; decide)]
    have h2 : maxByData (Plano.mk "2024-02-01" "Ana" "perda de peso")
        (Plano.mk "2024-02-01" "Caio" "manutencao")
        = Plano.mk "2024-02-01" "Caio" "manutencao" := by
      unfold maxByData
      rw [if_neg (by rw [String.lt_iff_toList_lt]; decide)]
    simp only [ultimoPlanoOf, reduce1, List.foldl_cons, List.foldl_nil, h1, h2]⟩

/-! ## Claim C5 -/

instance : IsTotal (String × Nat) byCountDesc :=
  ⟨fun a b => Nat.le_total b.2 a.2⟩

instance : IsTrans (String × Nat) byCountDesc :=
  ⟨fun _ _ _ h1 h2 => Nat.le_trans h2 h1⟩

/-- C5: the dashboard's `topObjetivos` (which is the sorted goal entries
cut to 3) never exceeds length 3, lists entries of the goal mapping in
descending count order, every goal entry left out counts no more than
any entry kept, and — the sort being stable — two entries in
non-ascending count order keep their relative (first-occurrence
insertion) order from the mapping. -/
theorem dashboard_topObjetivos_top3 (planos : List Plano) :
    (topObjetivosOf planos).length ≤ 3 ∧
    topObjetivosOf planos = (sortedObjetivosOf planos).take 3 ∧
    (topObjetivosOf planos).Pairwise byCountDesc ∧
    (∀ e ∈ topObjetivosOf planos, e ∈ planosPorObjetivoOf planos) ∧
    (∀ e ∈ planosPorObjetivoOf planos, e ∉ topObjetivosOf planos →
      ∀ f ∈ topObjetivosOf planos, e.2 ≤ f.2) ∧
    (∀ e₁ e₂ : String × Nat, e₂.2 ≤ e₁.2 →
      List.Sublist [e₁, e₂] (planosPorObjetivoOf planos) →
      List.Sublist [e₁, e₂] (sortedObjetivosOf planos)) ∧
    (∀ (within7 : String → Bool) (resp : DashResp),
      dashboard within7 planos = some resp →
      resp.topObjetivos = topObjetivosOf planos) := by
  have hsorted : (sortedObjetivosOf planos).Pairwise byCountDesc :=
    List.sorted_insertionSort byCountDesc (planosPorObjetivoOf planos)
  refine ⟨List.length_take_le .., rfl, ?_, ?_, ?_, ?_, ?_⟩
  · exact List.Pairwise.sublist (List.take_sublist 3 _) hsorted
  · intro e he
    exact (List.mem_insertionSort byCountDesc).mp (List.mem_of_mem_take he)
  · intro e he hnot f hf
    have hesorted : e ∈ sortedObjetivosOf planos :=
      (List.mem_insertionSort byCountDesc).mpr he
    have hpw : ((sortedObjetivosOf planos).take 3
        ++ (sortedObjetivosOf planos).drop 3).Pairwise byCountDesc := by
      rw [List.take_append_drop]
      exact hsorted
    have hedrop : e ∈ (sortedObjetivosOf planos).drop 3 := by
      have : e ∈ (sortedObjetivosOf planos).take 3
          ++ (sortedObjetivosOf planos).drop 3 := by
        rw [List.take_append_drop]
        exact hesorted
      rcases List.mem_append.mp this with h | h
      · exact absurd h hnot
      · exact h
    exact (List.pairwise_append.mp hpw).2.2 f hf e hedrop
  · intro e₁ e₂ hle hsub
    exact List.pair_sublist_insertionSort hle hsub
  · intro within7 resp hd
    cases planos with
    | nil =>
      have h0 : dashboard within7 [] = some zeroDash := rfl
      rw [h0] at hd
      cases hd
      rfl
    | cons p rest =>
      rw [dashboard_cons] at hd
      cases hd
      rfl

/-- Witness for C5 on five rows over four distinct goals (so one goal
entry is cut): the length bound, the kept-versus-cut count comparison at
the cut entry `emagrecimento`, and the stable tie-break for the equal
counts of `ganho de massa` before `manutencao`. -/
theorem dashboard_topObjetivos_top3_witness :
    (topObjetivosOf
      [Plano.mk "2024-01-01" "Ana" "perda de peso",
       Plano.mk "2024-01-02" "Bia" "perda de peso",
       Plano.mk "2024-01-03" "Caio" "ganho de massa",
       Plano.mk "2024-01-04" "Duda" "manutencao",
       Plano.mk "2024-01-05" "Edu" "emagrecimento"]).length ≤ 3 ∧
    ("emagrecimento", 1).2 ≤ ("perda de peso", 2).2 ∧
    List.Sublist [("ganho de massa", 1), ("manutencao", 1)]
      (sortedObjetivosOf
        [Plano.mk "2024-01-01" "Ana" "perda de peso",
         Plano.mk "2024-01-02" "Bia" "perda de peso",
         Plano.mk "2024-01-03" "Caio" "ganho de massa",
         Plano.mk "2024-01-04" "Duda" "manutencao",
         Plano.mk "2024-01-05" "Edu" "emagrecimento"]) := by
  have h := dashboard_topObjetivos_top3
    [Plano.mk "2024-01-01" "Ana" "perda de peso",
     Plano.mk "2024-01-02" "Bia" "perda de peso",
     Plano.mk "2024-01-03" "Caio" "ganho de massa",
     Plano.mk "2024-01-04" "Duda" "manutencao",
     Plano.mk "2024-01-05" "Edu" "emagrecimento"]
  refine ⟨h.1, ?_, ?_⟩
  · exact h.2.2.2.2.1 ("emagrecimento", 1) (by decide) (by decide)
      ("perda de peso", 2) (by decide)
  · exact h.2.2.2.2.2.1 ("ganho de massa", 1) ("manutencao", 1)
      (by decide) (by decide)

/-! ## JWT model and the `/login` handler (`src/index.js:51-88`)

`jsonwebtoken` is modelled symbolically: a signed token is its claims
plus the key it was signed with, and verification succeeds exactly when
the keys match. `JWT_SECRET` is the process-wide signing key. -/

/-- The claims `\x7bid, email, name\x7d` embedded at `src/index.js:80`. -/
structure JwtClaims where
  id : String
  email : String
  name : String
  deriving Repr, DecidableEq

/-- A signed token: claims plus the signing key. -/
structure JwtToken where
  claims : JwtClaims
  key : String
  deriving Repr, DecidableEq

/-- `jwt.sign(claims, secret)`. -/
def jwtSign (c : JwtClaims) (secret : String) : JwtToken :=
  ⟨c, secret⟩

/-- `jwt.verify(token, secret)`: the claims, or `none` for the thrown
verification error. -/
def jwtVerify (t : JwtToken) (secret : String) : Option JwtClaims :=
  if t.key = secret then some t.claims else none

/-- A row of the `users` profile table (`select('*')` at
`src/index.js:65`): its own row id plus the columns `/login` reads. -/
structure UserRow where
  id : String
  name : String
  email : String
  password : String
  deriving Repr, DecidableEq

/-- An identity-provider (Supabase Auth) user, as returned by
`getAuthUserByEmail` (`src/index.js:51-55`). -/
structure AuthUser where
  id : String
  email : String
  deriving Repr, DecidableEq

/-- Response of the `/login` handler. -/
inductive LoginResp where
  /-- 400 `Email e senha são obrigatórios.`. -/
  | missingFields
  /-- 401 `Usuário não encontrado.`. -/
  | userNotFound
  /-- 401 `Usuário Auth não encontrado.`. -/
  | authUserNotFound
  /-- 401 `Senha inválida.`. -/
  | wrongPassword
  /-- 200 `\x7buser: \x7bid, name, email\x7d, token\x7d`. -/
  | ok (userId name email : String) (token : JwtToken)
  deriving Repr, DecidableEq

/-- The `/login` handler: find the profile row by email, find the
identity-provider user by email, compare the password with `bcrypt`,
then sign `\x7bid: authUser.id, email: user.email, name: user.name\x7d` —
the identity-provider UUID, not the profile-row id. `findUser`,
`findAuth` and `bcryptCompare` are the store and bcrypt oracles; a
missing request field and the empty string are both JS-falsy, so both
are modelled by `""`. -/
def login (findUser : String → Option UserRow) (findAuth : String → Option AuthUser)
    (bcryptCompare : String → String → Bool) (secret : String)
    (email password : String) : LoginResp :=
  if email = "" ∨ password = "" then .missingFields
  else
    match findUser email with
    | none => .userNotFound
    | some user =>
      match findAuth email with
      | none => .authUserNotFound
      | some authUser =>
        if bcryptCompare password user.password then
          .ok authUser.id user.name user.email
            (jwtSign ⟨authUser.id, user.email, user.name⟩ secret)
        else .wrongPassword

/-! ## Claim C7 -/

/-- C7: for every valid login — the email has both a profile row and an
identity-provider user, and the password verifies against the stored
hash — the returned token, verified with the process signing key, yields
a user id equal to the identity-provider identifier for that email; in
particular, whenever that identifier differs from the profile-row id,
the token id is not the profile-row id. -/
theorem login_token_carries_auth_id
    (findUser : String → Option UserRow) (findAuth : String → Option AuthUser)
    (bcryptCompare : String → String → Bool) (secret : String)
    (email password : String) (u : UserRow) (a : AuthUser)
    (hemail : email ≠ "") (hpass : password ≠ "")
    (hu : findUser email = some u) (ha : findAuth email = some a)
    (hcmp : bcryptCompare password u.password = true) :
    ∃ tok, login findUser findAuth bcryptCompare secret email password
        = .ok a.id u.name u.email tok ∧
      jwtVerify tok secret = some ⟨a.id, u.email, u.name⟩ ∧
      (jwtVerify tok secret).map JwtClaims.id = some a.id ∧
      (a.id ≠ u.id → (jwtVerify tok secret).map JwtClaims.id ≠ some u.id) := by
  refine ⟨jwtSign ⟨a.id, u.email, u.name⟩ secret, ?_, ?_, ?_, ?_⟩
  · simp [login, hemail, hpass, hu, ha, hcmp]
  · simp [jwtSign, jwtVerify]
  · simp [jwtSign, jwtVerify]
  · intro hne
    simp [jwtSign, jwtVerify, hne]

/-- Witness for C7: a one-user store where the profile-row id `17` and
the identity-provider UUID `uuid-ana` differ; the verified token id is
the UUID. -/
theorem login_token_carries_auth_id_witness :
    ∃ tok, login
        (fun e => if e = "ana@x.com" then some ⟨"17", "Ana", "ana@x.com", "h"⟩ else none)
        (fun e => if e = "ana@x.com" then some ⟨"uuid-ana", "ana@x.com"⟩ else none)
        (fun p h => p = "s" && h = "h") "genutra-secret" "ana@x.com" "s"
        = .ok "uuid-ana" "Ana" "ana@x.com" tok ∧
      jwtVerify tok "genutra-secret" = some ⟨"uuid-ana", "ana@x.com", "Ana"⟩ ∧
      (jwtVerify tok "genutra-secret").map JwtClaims.id = some "uuid-ana" ∧
      ("uuid-ana" ≠ "17" →
        (jwtVerify tok "genutra-secret").map JwtClaims.id ≠ some "17") :=
  login_token_carries_auth_id
    (fun e => if e = "ana@x.com" then some ⟨"17", "Ana", "ana@x.com", "h"⟩ else none)
    (fun e => if e = "ana@x.com" then some ⟨"uuid-ana", "ana@x.com"⟩ else none)
    (fun p h => p = "s" && h = "h") "genutra-secret" "ana@x.com" "s"
    ⟨"17", "Ana", "ana@x.com", "h"⟩ ⟨"uuid-ana", "ana@x.com"⟩
    (by decide) (by decide) (by decide) (by decide) (by decide)

/-! ## The `/register` handler (`src/index.js:104-142`) -/

/-- The profile row handed to `supabase.from('users').insert`
(`src/index.js:121-131`). -/
structure ProfileInsert where
  name : String
  email : String
  passwordHash : String
  cpf_cnpj : String
  profession : String
  crn : Option String
  uuid : String
  deriving Repr, DecidableEq

/-- Response of the `/register` handler. -/
inductive RegisterResp where
  /-- 400 `Preencha todos os campos obrigatórios.`. -/
  | missingFields
  /-- 400 with the identity provider's `authError.message`. -/
  | authError (msg : String)
  /-- 400 with the store's `userError.message`. -/
  | insertError (msg : String)
  /-- 200 `\x7buser, message\x7d`. -/
  | ok (row : ProfileInsert)
  deriving Repr, DecidableEq

/-- Outcome of `/register`: the response plus the profile row handed to
the `users` insert, if that insert was reached at all. -/
structure RegisterOut where
  resp : RegisterResp
  insertedProfile : Option ProfileInsert
  deriving Repr, DecidableEq

/-- HTTP status of a `/register` response. -/
def registerStatus : RegisterResp → Nat
  | .missingFields => 400
  | .authError _ => 400
  | .insertError _ => 400
  | .ok _ => 200

/-- `crn || null`: the empty string is falsy, so it is stored as null. -/
def crnOrNull (crn : Option String) : Option String :=
  match crn with
  | none => none
  | some s => if s = "" then none else some s

/-- The `/register` handler: validate required fields (missing and empty
are both JS-falsy), create the identity-provider user (`createAuth` is
the provider's response for this email), and only then hash the password
and insert the profile row. `hash` is the bcrypt oracle and
`insertUser` the store's answer to the insert. -/
def register (createAuth : Except String AuthUser) (hash : String → String)
    (insertUser : ProfileInsert → Except String ProfileInsert)
    (name email password cpf_cnpj profession : String) (crn : Option String) :
    RegisterOut :=
  if name = "" ∨ email = "" ∨ password = "" ∨ cpf_cnpj = "" ∨ profession = "" then
    ⟨.missingFields, none⟩
  else
    match createAuth with
    | .error msg => ⟨.authError msg, none⟩
    | .ok au =>
      let row : ProfileInsert :=
        ⟨name, email, hash password, cpf_cnpj, profession, crnOrNull crn, au.id⟩
      match insertUser row with
      | .error msg => ⟨.insertError msg, some row⟩
      | .ok saved => ⟨.ok saved, some row⟩

/-! ## Claim C8 -/

/-- C8: for every registration request whose required fields are present
but whose email already exists in the identity provider — i.e. identity
creation answers an error — the response is HTTP 400 carrying the
provider's message, and no profile row is handed to the `users` insert:
registration state is unchanged on this error, whatever the bcrypt and
store oracles would have done. -/
theorem register_auth_error_no_profile_row
    (hash : String → String) (insertUser : ProfileInsert → Except String ProfileInsert)
    (name email password cpf_cnpj profession : String) (crn : Option String)
    (msg : String)
    (hname : name ≠ "") (hemail : email ≠ "") (hpass : password ≠ "")
    (hcpf : cpf_cnpj ≠ "") (hprof : profession ≠ "") :
    register (.error msg) hash insertUser name email password cpf_cnpj profession crn
      = ⟨.authError msg, none⟩ ∧
    registerStatus (register (.error msg) hash insertUser name email password
      cpf_cnpj profession crn).resp = 400 ∧
    (register (.error msg) hash insertUser name email password
      cpf_cnpj profession crn).insertedProfile = none := by
  have key : register (.error msg) hash insertUser name email password cpf_cnpj
      profession crn = ⟨.authError msg, none⟩ := by
    simp [register, hname, hemail, hpass, hcpf, hprof]
  exact ⟨key, by rw [key]; rfl, by rw [key]⟩

/-- Witness for C8: a complete registration for an email the provider
already knows (`User already registered`). -/
theorem register_auth_error_no_profile_row_witness :
    register (.error "User already registered") (fun p => p) (fun r => .ok r)
        "Ana" "ana@x.com" "s" "123" "nutri" none
      = ⟨.authError "User already registered", none⟩ ∧
    registerStatus (register (.error "User already registered") (fun p => p)
      (fun r => .ok r) "Ana" "ana@x.com" "s" "123" "nutri" none).resp = 400 ∧
    (register (.error "User already registered") (fun p => p) (fun r => .ok r)
      "Ana" "ana@x.com" "s" "123" "nutri" none).insertedProfile = none :=
  register_auth_error_no_profile_row (fun p => p) (fun r => .ok r)
    "Ana" "ana@x.com" "s" "123" "nutri" none "User already registered"
    (by decide) (by decide) (by decide) (by decide) (by decide)


/-! ## The JWT middleware `authenticateJWT` (`src/index.js:35-48`)

`authHeader.split(' ')[1]` takes the second word of the `Authorization`
header; the first word, the scheme, is never inspected. JavaScript's
`split(' ')` cuts at every single space and keeps empty chunks;
`splitWords` below is that function on the header's characters.
`verify` abstracts `jwt.verify(·, JWT_SECRET)`, with `none` standing for
the thrown verification error. -/

/-- JavaScript `s.split(' ')`: maximal (possibly empty) chunks between
single spaces; `"".split(' ')` is `[""]`. -/
def splitWords : List Char → List String
  | [] => [""]
  | c :: rest =>
    if c = ' ' then "" :: splitWords rest
    else
      match splitWords rest with
      | [] => [⟨[c]⟩]
      | w :: ws => ⟨c :: w.data⟩ :: ws

/-- Outcome of the middleware. -/
inductive AuthOutcome where
  /-- 401 `Token não fornecido.` (header absent, or the JS-falsy `""`). -/
  | missingToken
  /-- 401 `Token inválido.` (no second word, an empty second word, or
  verification threw). -/
  | invalidToken
  /-- `next()` with `req.user = decoded`. -/
  | ok (c : JwtClaims)
  deriving Repr, DecidableEq

/-- The middleware: reject an absent or empty (JS-falsy) header, split
on single spaces, take index 1, reject a missing or empty (JS-falsy)
token, else verify. -/
def authenticateJWT (verify : String → Option JwtClaims) :
    Option String → AuthOutcome
  | none => .missingToken
  | some h =>
    if h = "" then .missingToken
    else
      match (splitWords h.data)[1]? with
      | none => .invalidToken
      | some t =>
        if t = "" then .invalidToken
        else
          match verify t with
          | some c => .ok c
          | none => .invalidToken

/-- HTTP status of a middleware outcome. -/
def authStatus : AuthOutcome → Nat
  | .missingToken => 401
  | .invalidToken => 401
  | .ok _ => 200

/-- The client-visible decision: status code plus the accepted claims. -/
def authDecision (o : AuthOutcome) : Nat × Option JwtClaims :=
  (authStatus o, match o with | .ok c => some c | _ => none)

/-- What the middleware does once the header passed the falsy check: a
function of the second word alone. -/
def authOfSecond (verify : String → Option JwtClaims) :
    Option String → AuthOutcome
  | none => .invalidToken
  | some t =>
    if t = "" then .invalidToken
    else
      match verify t with
      | some c => .ok c
      | none => .invalidToken

theorem splitWords_ne_nil (l : List Char) : splitWords l ≠ [] := by
  cases l with
  | nil => simp [splitWords]
  | cons c rest =>
    by_cases hc : c = ' '
    · simp [splitWords, hc]
    · simp only [splitWords, if_neg hc]
      rcases h : splitWords rest with _ | ⟨w, ws⟩ <;> simp

theorem authenticateJWT_eq_authOfSecond (verify : String → Option JwtClaims)
    {h : String} (hne : h ≠ "") :
    authenticateJWT verify (some h) = authOfSecond verify (splitWords h.data)[1]? := by
  rw [authenticateJWT, if_neg hne]
  rcases hs : (splitWords h.data)[1]? with _ | t
  · rfl
  · rfl

theorem splitWords_empty_second : (splitWords (String.data ""))[1]? = none := rfl

/-- Prefixing a space-free word and a space shifts `splitWords` by one
chunk. -/
theorem splitWords_word_space (pre : List Char) (hpre : ' ' ∉ pre)
    (rest : List Char) :
    splitWords (pre ++ ' ' :: rest) = (⟨pre⟩ : String) :: splitWords rest := by
  induction pre with
  | nil => simp [splitWords]
  | cons c pre' ih =>
    have hc : c ≠ ' ' := fun hx => hpre (hx ▸ List.mem_cons_self ..)
    have hpre' : ' ' ∉ pre' := fun hx => hpre (List.mem_cons_of_mem _ hx)
    simp only [List.cons_append, splitWords, if_neg hc]
    simp only [List.append_eq]
    rw [ih hpre']

/-! ## Claim C9 -/

/-- C9: the middleware never checks the scheme word of the
`Authorization` header. For every verifier that (like `jwt.verify`)
rejects the empty token: a header whose second space-separated word
verifies is accepted — `Foo <token>` authenticates exactly like
`Bearer <token>` for every token; a header with no second word is
rejected with 401; and the client-visible decision (status and accepted
claims) is a function of the second word alone. -/
theorem authenticateJWT_ignores_scheme (verify : String → Option JwtClaims)
    (hverify : verify "" = none) :
    (∀ (h t : String) (c : JwtClaims), (splitWords h.data)[1]? = some t →
      verify t = some c → authenticateJWT verify (some h) = .ok c) ∧
    (∀ t : String, authenticateJWT verify (some ("Foo " ++ t))
      = authenticateJWT verify (some ("Bearer " ++ t))) ∧
    (∀ h : String, (splitWords h.data)[1]? = none →
      authStatus (authenticateJWT verify (some h)) = 401) ∧
    (∀ h₁ h₂ : String, (splitWords h₁.data)[1]? = (splitWords h₂.data)[1]? →
      authDecision (authenticateJWT verify (some h₁))
        = authDecision (authenticateJWT verify (some h₂))) := by
  have hdec : ∀ h : String, authDecision (authenticateJWT verify (some h))
      = authDecision (authOfSecond verify (splitWords h.data)[1]?) := by
    intro h
    by_cases hne : h = ""
    · subst hne
      rw [splitWords_empty_second]
      rfl
    · rw [authenticateJWT_eq_authOfSecond verify hne]
  refine ⟨?_, ?_, ?_, ?_⟩
  · intro h t c hsecond hv
    have hne : h ≠ "" := by
      intro hempty
      subst hempty
      rw [splitWords_empty_second] at hsecond
      exact Option.noConfusion hsecond
    have htne : t ≠ "" := by
      intro hempty
      subst hempty
      rw [hverify] at hv
      exact Option.noConfusion hv
    rw [authenticateJWT_eq_authOfSecond verify hne, hsecond]
    simp [authOfSecond, htne, hv]
  · intro t
    have hfoo : ("Foo " ++ t).data = ['F', 'o', 'o'] ++ ' ' :: t.data := by
      simp [String.data_append]
    have hbearer : ("Bearer " ++ t).data
        = ['B', 'e', 'a', 'r', 'e', 'r'] ++ ' ' :: t.data := by
      simp [String.data_append]
    have hne1 : ("Foo " ++ t) ≠ "" := by
      intro hx
      have := congrArg String.data hx
      rw [hfoo] at this
      simp at this
    have hne2 : ("Bearer " ++ t) ≠ "" := by
      intro hx
      have := congrArg String.data hx
      rw [hbearer] at this
      simp at this
    rw [authenticateJWT_eq_authOfSecond verify hne1,
      authenticateJWT_eq_authOfSecond verify hne2, hfoo, hbearer,
      splitWords_word_space ['F', 'o', 'o'] (by decide) t.data,
      splitWords_word_space ['B', 'e', 'a', 'r', 'e', 'r'] (by decide) t.data]
    simp only [List.getElem?_cons_succ]
  · intro h hsecond
    by_cases hne : h = ""
    · subst hne
      rfl
    · rw [authenticateJWT_eq_authOfSecond verify hne, hsecond]
      rfl
  · intro h₁ h₂ hsame
    rw [hdec h₁, hdec h₂, hsame]

/-- Witness for C9 with an exact-match verifier for the token `tok123`:
the non-`Bearer` scheme `Foo` authenticates, `Bearer` with a bad token
is 401, and a one-word header is 401. -/
theorem authenticateJWT_ignores_scheme_witness :
    authenticateJWT
        (fun t => if t = "tok123" then some ⟨"uuid-ana", "ana@x.com", "Ana"⟩ else none)
        (some "Foo tok123") = .ok ⟨"uuid-ana", "ana@x.com", "Ana"⟩ ∧
    authenticateJWT
        (fun t => if t = "tok123" then some ⟨"uuid-ana", "ana@x.com", "Ana"⟩ else none)
        (some "Foo tok123")
      = authenticateJWT
        (fun t => if t = "tok123" then some ⟨"uuid-ana", "ana@x.com", "Ana"⟩ else none)
        (some "Bearer tok123") ∧
    authStatus (authenticateJWT
        (fun t => if t = "tok123" then some ⟨"uuid-ana", "ana@x.com", "Ana"⟩ else none)
        (some "Bearer")) = 401 := by
  have h := authenticateJWT_ignores_scheme
    (fun t => if t = "tok123" then some ⟨"uuid-ana", "ana@x.com", "Ana"⟩ else none)
    (by decide)
  refine ⟨?_, ?_, ?_⟩
  · exact h.1 "Foo tok123" "tok123" ⟨"uuid-ana", "ana@x.com", "Ana"⟩
      (by decide) (by decide)
  · have := h.2.1 "tok123"
    simpa using this
  · exact h.2.2.1 "Bearer" (by decide)

/-! ## The `/planos/recentes` handler (`src/index.js:314-335`)

`parseInt(req.query.limit) || 5` and `parseInt(req.query.offset) || 0`:
`parseInt` yields `NaN` on a missing or non-numeric parameter, and
`x || d` replaces both `NaN` and `0` by the default. The store's
`.range(offset, offset + limit - 1)` returns the rows at the inclusive
index window, i.e. drop `offset`, take `limit`, from the user's rows in
date-descending store order (`rows` here); the negative values a
negative query would produce are rejected by the store and not modelled. -/

/-- The whitespace `parseInt` skips. -/
def skipJsWs : List Char → List Char
  | c :: rest =>
    if c = ' ' ∨ c = '\t' ∨ c = '\n' ∨ c = '\r' ∨ c = Char.ofNat 11 ∨ c = Char.ofNat 12
    then skipJsWs rest
    else c :: rest
  | [] => []

/-- The external `parseInt(x)` builtin on a string-or-`undefined` query
parameter, in base 10: skip whitespace, optional sign, the leading digit
run (trailing junk ignored); `none` is `NaN`. (The automatic `0x` hex
mode is not exercised by anything here.) -/
def jsParseInt (q : Option String) : Option Int :=
  match q with
  | none => none
  | some s =>
    let l := skipJsWs s.data
    let signed : Int × List Char :=
      match l with
      | '-' :: r => (-1, r)
      | '+' :: r => (1, r)
      | _ => (1, l)
    let ds := signed.2.takeWhile Char.isDigit
    if ds.isEmpty then none
    else some (signed.1 * (digitsToNat ds : Int))

/-- `x || d` on a parsed number: `NaN` and `0` both fall back to `d`. -/
def jsOrDefault (x : Option Int) (d : Int) : Int :=
  match x with
  | none => d
  | some v => if v = 0 then d else v

/-- The `/planos/recentes` listing on the user's date-descending rows. -/
def planosRecentes (rows : List Plano) (limitQ offsetQ : Option String) : List Plano :=
  let limit := jsOrDefault (jsParseInt limitQ) 5
  let offset := jsOrDefault (jsParseInt offsetQ) 0
  (rows.drop offset.toNat).take limit.toNat

/-! ## Claim C10 -/

/-- C10: `limit=0` and every non-numeric `limit` fall back to the
default 5 (because `parseInt(...) || 5` treats `0` and `NaN` alike), and
likewise `offset=0` and non-numeric offsets are treated as 0; so
requesting `limit=0` returns up to 5 records — exactly
`min 5 (number of rows)` with offset 0 — not 0 records. -/
theorem planos_recentes_zero_limit_default (rows : List Plano) :
    jsParseInt (some "0") = some 0 ∧
    jsParseInt none = none ∧
    (∀ offsetQ, planosRecentes rows (some "0") offsetQ
      = planosRecentes rows none offsetQ) ∧
    (∀ (s : String) (offsetQ : Option String), jsParseInt (some s) = none →
      planosRecentes rows (some s) offsetQ = planosRecentes rows none offsetQ) ∧
    (∀ limitQ, planosRecentes rows limitQ (some "0")
      = planosRecentes rows limitQ none) ∧
    (∀ (s : String) (limitQ : Option String), jsParseInt (some s) = none →
      planosRecentes rows limitQ (some s) = planosRecentes rows limitQ none) ∧
    (∀ offsetQ, (planosRecentes rows (some "0") offsetQ).length ≤ 5) ∧
    (planosRecentes rows (some "0") (some "0")).length = min 5 rows.length := by
  refine ⟨rfl, rfl, fun _ => rfl, ?_, fun _ => rfl, ?_, ?_, ?_⟩
  · intro s offsetQ hs
    simp only [planosRecentes, hs]
    rfl
  · intro s limitQ hs
    simp only [planosRecentes, hs]
    rfl
  · intro offsetQ
    exact List.length_take_le ..
  · show ((rows.drop 0).take 5).length = min 5 rows.length
    rw [List.drop_zero, List.length_take]

/-- Witness for C10 on a two-row store: `limit=abc` and `offset=xyz`
behave like the defaults, and `limit=0` returns `min 5 2 = 2` records,
not 0. -/
theorem planos_recentes_zero_limit_default_witness :
    (planosRecentes
        [Plano.mk "2024-02-01" "Ana" "perda de peso",
         Plano.mk "2024-01-01" "Bia" "ganho de massa"] (some "abc") none
      = planosRecentes
        [Plano.mk "2024-02-01" "Ana" "perda de peso",
         Plano.mk "2024-01-01" "Bia" "ganho de massa"] none none) ∧
    (planosRecentes
        [Plano.mk "2024-02-01" "Ana" "perda de peso",
         Plano.mk "2024-01-01" "Bia" "ganho de massa"] none (some "xyz")
      = planosRecentes
        [Plano.mk "2024-02-01" "Ana" "perda de peso",
         Plano.mk "2024-01-01" "Bia" "ganho de massa"] none none) ∧
    (planosRecentes
        [Plano.mk "2024-02-01" "Ana" "perda de peso",
         Plano.mk "2024-01-01" "Bia" "ganho de massa"] (some "0") (some "0")).length
      = min 5 2 := by
  have h := planos_recentes_zero_limit_default
    [Plano.mk "2024-02-01" "Ana" "perda de peso",
     Plano.mk "2024-01-01" "Bia" "ganho de massa"]
  exact ⟨h.2.2.2.1 "abc" none (by decide), h.2.2.2.2.2.1 "xyz" none (by decide),
    h.2.2.2.2.2.2.2⟩
